import Mathlib

/-!
Verification development for the YouTube transcriber script
(src/youtube_transcriber.py).  Strings are modelled as lists of
characters, timestamps as rational numbers, and the external
collaborators (caption API, yt_dlp download, whisper recognition,
filesystem) as an explicit environment record.  The orchestrator is
instrumented with an event trace recording which collaborators were
invoked, and with a workspace state recording the lifecycle of the
temporary directory used by local transcription.
-/

/-- Convert a string literal to the list-of-characters representation
used throughout this development. -/
def str (s : String) : List Char := s.data

/-- Characters at which a captured video identifier is truncated.
These are the characters of the negated character class in the two
regular expressions of extract_video_id. -/
def isStop (c : Char) : Bool := c = '&' || c = '\n' || c = '?' || c = '#'

/-- A character admitted inside a captured video identifier. -/
def notStop (c : Char) : Bool := ! isStop c

/-- First literal alternative of the first pattern. -/
def trigWatch : List Char := str "youtube.com/watch?v="

/-- Second literal alternative of the first pattern. -/
def trigShort : List Char := str "youtu.be/"

/-- Third literal alternative of the first pattern. -/
def trigEmbed : List Char := str "youtube.com/embed/"

/-- Literal head of the second pattern. -/
def trigWatchQ : List Char := str "youtube.com/watch?"

/-- Attempt one alternative of the first pattern at the current
position: the literal trigger must be a prefix, and the greedy capture
takes the maximal nonempty run of identifier characters after it. -/
def try1 (t s : List Char) : Option (List Char) :=
  if t.isPrefixOf s then
    match (s.drop t.length).takeWhile notStop with
    | [] => none
    | c :: cs => some (c :: cs)
  else none

/-- The first regular expression tried at one fixed position: the
three alternatives in order. -/
def match1At (s : List Char) : Option (List Char) :=
  match try1 trigWatch s with
  | some r => some r
  | none =>
    match try1 trigShort s with
    | some r => some r
    | none => try1 trigEmbed s

/-- Unanchored search with the first pattern: positions are scanned
left to right and the first position with a match wins. -/
def search1 : List Char → Option (List Char)
  | [] => none
  | c :: t =>
    match match1At (c :: t) with
    | some r => some r
    | none => search1 t

/-- Backtracking of the greedy dot-star of the second pattern: find
the rightmost occurrence of the literal v= that is followed by at
least one identifier character, without crossing a newline. -/
def lastVeq : List Char → Option (List Char)
  | [] => none
  | c :: t =>
    if c = '\n' then none
    else
      match lastVeq t with
      | some r => some r
      | none =>
        if ['v', '='].isPrefixOf (c :: t) then
          match ((c :: t).drop 2).takeWhile notStop with
          | [] => none
          | d :: ds => some (d :: ds)
        else none

/-- Unanchored search with the second pattern: at each position the
literal head must match, then the greedy remainder looks for the last
usable v= occurrence. -/
def search2 : List Char → Option (List Char)
  | [] => none
  | c :: t =>
    if trigWatchQ.isPrefixOf (c :: t) then
      match lastVeq ((c :: t).drop trigWatchQ.length) with
      | some r => some r
      | none => search2 t
    else search2 t

/-- extract_video_id from the source: the two patterns are tried in
order over the whole input; the first match of the first pattern wins,
otherwise the second pattern is consulted; no match yields none. -/
def extract_video_id (url : List Char) : Option (List Char) :=
  match search1 url with
  | some v => some v
  | none => search2 url

/-- is_valid_youtube_url from the source: validity is exactly
extraction success. -/
def is_valid_youtube_url (url : List Char) : Bool :=
  (extract_video_id url).isSome

/-- The video id string interpolated by the source after a successful
validity check; a missing id renders as the Python literal None. -/
def videoIdOf (url : List Char) : List Char :=
  match extract_video_id url with
  | some v => v
  | none => str "None"

/-- Decimal digit rendering helper, fuel-recursive so that it reduces
by evaluation. -/
def natDigitsAux : Nat → Nat → List Char → List Char
  | 0, _, acc => acc
  | fuel + 1, n, acc =>
    if n < 10 then Char.ofNat (48 + n) :: acc
    else natDigitsAux fuel (n / 10) (Char.ofNat (48 + n % 10) :: acc)

/-- Decimal rendering of a natural number, as Python str of an int. -/
def natDigits (n : Nat) : List Char := natDigitsAux (n + 1) n []

/-- The Python format specifier 02d: pad the decimal rendering with a
leading zero up to width two. -/
def pad2 (n : Nat) : List Char :=
  if n < 10 then '0' :: natDigits n else natDigits n

/-- The Python modulo operation on rationals: the remainder carries
the sign of the divisor, here always used with positive divisors. -/
def pyMod (a b : ℚ) : ℚ := a - b * (⌊a / b⌋ : ℚ)

/-- format_timestamp from the source: floor-divide into hours,
minutes and seconds; render HH:MM:SS when the hour field is positive
and MM:SS otherwise, each field zero-padded to two digits. -/
def format_timestamp (seconds : ℚ) : List Char :=
  if 0 < ⌊seconds / 3600⌋ then
    pad2 (⌊seconds / 3600⌋.toNat) ++ ':' ::
      pad2 (⌊pyMod seconds 3600 / 60⌋.toNat) ++ ':' ::
        pad2 (⌊pyMod seconds 60⌋.toNat)
  else
    pad2 (⌊pyMod seconds 3600 / 60⌋.toNat) ++ ':' ::
      pad2 (⌊pyMod seconds 60⌋.toNat)

/-- The unified transcript segment shape produced by both sources. -/
structure TranscriptSegment where
  text : List Char
  start : ℚ
  duration : ℚ
  deriving DecidableEq, Repr

/-- One raw speech segment as returned by the whisper collaborator. -/
structure WhisperSegment where
  start : ℚ
  endTime : ℚ
  text : List Char
  deriving DecidableEq, Repr

/-- The full result of the whisper collaborator. -/
structure WhisperResult where
  language : Option (List Char)
  segments : List WhisperSegment
  deriving DecidableEq, Repr

/-- The options dictionary assembled by main from the parsed command
line arguments. -/
structure TranscriptionOptions where
  timestamps : Bool
  local_only : Bool
  no_local : Bool
  model : List Char
  deriving DecidableEq, Repr

/-- Collaborator invocations observed during a run. -/
inductive Event where
  | fetchCaptions : Event
  | localTranscription : Event
  | downloadAudio : Event
  | transcribeLocal : Event
  deriving DecidableEq, Repr

/-- State of the scoped temporary workspace directory: whether it was
ever created, and whether it currently exists on disk. -/
structure WorkspaceState where
  created : Bool
  live : Bool
  deriving DecidableEq, Repr

/-- The external collaborators: the caption service keyed by video id,
the audio downloader keyed by url and output template, the filesystem
existence probe, the whisper recognizer keyed by audio path and model
size, and the name handed out by mkdtemp. -/
structure Env where
  remote : List Char → Except (List Char) (List TranscriptSegment)
  ydl : List Char → List Char → Except (List Char) Unit
  fileExists : List Char → Bool
  whisper : List Char → List Char → Except (List Char) WhisperResult
  tempDirName : List Char

/-- Whitespace characters removed by the Python strip method. -/
def isPySpace (c : Char) : Bool :=
  c = ' ' || c = '\t' || c = '\n' || c = '\r' || c = '\x0b' || c = '\x0c'

/-- Python strip: remove leading and trailing whitespace. -/
def pyStrip (s : List Char) : List Char :=
  ((s.dropWhile isPySpace).reverse.dropWhile isPySpace).reverse

/-- transcribe_audio_local from the source: run the whisper
collaborator; on success adapt each (start, end, text) segment to the
unified shape, trimming whitespace and taking end minus start as the
duration; any failure is wrapped with the local transcription prefix. -/
def transcribe_audio_local (env : Env) (audio_path model_size : List Char) :
    Except (List Char) (List TranscriptSegment) :=
  match env.whisper audio_path model_size with
  | .error e => .error (str "Local transcription failed: " ++ e)
  | .ok result =>
    .ok (result.segments.map fun sg =>
      { text := pyStrip sg.text, start := sg.start, duration := sg.endTime - sg.start })

/-- Fuel-recursive worker for the Python replace method. -/
def replaceAllAux (pat sub : List Char) : Nat → List Char → List Char
  | 0, s => s
  | _ + 1, [] => []
  | fuel + 1, c :: t =>
    if pat.isPrefixOf (c :: t) && ! pat.isEmpty then
      sub ++ replaceAllAux pat sub fuel ((c :: t).drop pat.length)
    else
      c :: replaceAllAux pat sub fuel t

/-- Python str.replace: replace every non-overlapping occurrence of
pat by sub, scanning left to right. -/
def replaceAll (s pat sub : List Char) : List Char :=
  replaceAllAux pat sub s.length s

/-- The ordered list of audio container extensions probed after a
download reports completion. -/
def audioExts : List (List Char) :=
  [str ".m4a", str ".webm", str ".mp4", str ".mp3"]

/-- The probing loop of download_audio: return the first base + ext
path that exists on disk, in the fixed order of audioExts. -/
def findDownloaded (fileExists : List Char → Bool) (base : List Char) :
    List (List Char) → Option (List Char)
  | [] => none
  | ext :: rest =>
    if fileExists (base ++ ext) then some (base ++ ext)
    else findDownloaded fileExists base rest

/-- download_audio from the source: run the downloader; afterwards
strip the extension template from the output path and probe the
expected extensions in order.  Both a downloader failure and a missing
output file are re-raised under the download failure prefix, the
latter with the distinct message about the file not being found. -/
def download_audio (env : Env) (url output_path : List Char) :
    Except (List Char) (List Char) :=
  match env.ydl url output_path with
  | .error e => .error (str "Download failed: " ++ e)
  | .ok _ =>
    match findDownloaded env.fileExists
        (replaceAll output_path (str ".%(ext)s") []) audioExts with
    | some p => .ok p
    | none => .error (str "Download failed: Downloaded file not found")

/-- The workspace right after tempfile.mkdtemp at the start of
local_transcription. -/
def mkWorkspace : WorkspaceState := { created := true, live := true }

/-- The effect of the shutil.rmtree call in the finally clause. -/
def rmWorkspace (w : WorkspaceState) : WorkspaceState :=
  { created := w.created, live := false }

/-- local_transcription from the source: create the workspace, build
the output template from the video id, download then transcribe, and
on every exit path apply the finally clause that removes the
workspace.  The returned triple carries the result or the re-raised
exception, the trace of collaborator invocations, and the final
workspace state. -/
def local_transcription (env : Env) (url : List Char) (opts : TranscriptionOptions) :
    Except (List Char) (List TranscriptSegment) × List Event × WorkspaceState :=
  match download_audio env url
      (env.tempDirName ++ str "/" ++ videoIdOf url ++ str ".%(ext)s") with
  | .error e =>
    (.error e, [Event.localTranscription, Event.downloadAudio], rmWorkspace mkWorkspace)
  | .ok p =>
    match transcribe_audio_local env p opts.model with
    | .error e =>
      (.error e,
       [Event.localTranscription, Event.downloadAudio, Event.transcribeLocal],
       rmWorkspace mkWorkspace)
    | .ok segs =>
      (.ok segs,
       [Event.localTranscription, Event.downloadAudio, Event.transcribeLocal],
       rmWorkspace mkWorkspace)

/-- The separator rule printed by print_transcript. -/
def sepRule : List Char := List.replicate 60 '='

/-- One printed line of print_transcript for one segment. -/
def renderSegmentLine (show_timestamps : Bool) (seg : TranscriptSegment) : List Char :=
  if show_timestamps then
    '[' :: (format_timestamp seg.start ++ str "] " ++ seg.text ++ str "\n")
  else seg.text ++ str "\n"

/-- print_transcript from the source, modelled as the text written to
standard output: header naming the source when one is given, a
separator rule, one line per segment, a blank line and a second rule,
and the trailing segment count. -/
def print_transcript (segments : List TranscriptSegment) (show_timestamps : Bool)
    (source : List Char) : List Char :=
  (if source ≠ [] then str "\nTranscript (Source: " ++ source ++ str ")\n\n"
   else str "\nTranscript\n\n")
  ++ sepRule ++ str "\n"
  ++ (segments.map (renderSegmentLine show_timestamps)).foldr (· ++ ·) []
  ++ str "\n" ++ sepRule ++ str "\n"
  ++ str "Total segments: " ++ natDigits segments.length ++ str "\n"

/-- The local branch of get_transcript: invoke local_transcription and
wrap any failure with the local transcription prefix. -/
def run_local_stage (env : Env) (url : List Char) (opts : TranscriptionOptions) :
    Except (List Char) Unit × List Event × WorkspaceState :=
  match local_transcription env url opts with
  | (.ok _, evs, ws) => (.ok (), evs, ws)
  | (.error e, evs, ws) =>
    (.error (str "Local transcription failed: " ++ e), evs, ws)

/-- get_transcript from the source: validate the url, then unless
local_only try the caption fetcher; on fetch success finish, on fetch
failure either raise the terminal wrapped error when no_local is set
or fall through to the local stage; with local_only the local stage
runs directly.  The triple carries the outcome, the collaborator
trace, and the final workspace state. -/
def get_transcript (env : Env) (url : List Char) (opts : TranscriptionOptions) :
    Except (List Char) Unit × List Event × WorkspaceState :=
  if is_valid_youtube_url url = false then
    (.error (str "Invalid YouTube URL provided"), [], { created := false, live := false })
  else if opts.local_only = false then
    match env.remote (videoIdOf url) with
    | .ok _ => (.ok (), [Event.fetchCaptions], { created := false, live := false })
    | .error e =>
      if opts.no_local = true then
        (.error (str "No transcript available: " ++ e), [Event.fetchCaptions],
         { created := false, live := false })
      else
        ((run_local_stage env url opts).1,
         Event.fetchCaptions :: (run_local_stage env url opts).2.1,
         (run_local_stage env url opts).2.2)
  else run_local_stage env url opts

deriving instance DecidableEq for Except

/-- One concrete whisper output used to witness C9. -/
def whisperOutW : WhisperResult :=
  { language := some (str "en"),
    segments := [{ start := 0, endTime := 5/2, text := str "  hello " }] }

/-- A concrete environment whose recognizer succeeds. -/
def envWhisperOk : Env :=
  { remote := fun _ => .error (str "captions disabled"),
    ydl := fun _ _ => .ok (),
    fileExists := fun _ => false,
    whisper := fun _ _ => .ok whisperOutW,
    tempDirName := str "/tmp/tmpw" }

/-- A concrete environment in which every collaborator fails. -/
def envStub : Env :=
  { remote := fun _ => .error (str "captions disabled"),
    ydl := fun _ _ => .error (str "network down"),
    fileExists := fun _ => false,
    whisper := fun _ _ => .error (str "no model"),
    tempDirName := str "/tmp/tmpx" }

/-- A concrete environment whose download succeeds and leaves a webm
file on disk. -/
def envDlFound : Env :=
  { remote := fun _ => .error (str "captions disabled"),
    ydl := fun _ _ => .ok (),
    fileExists := fun p => p == str "/tmp/w/abc.webm",
    whisper := fun _ _ => .error (str "no model"),
    tempDirName := str "/tmp/w" }

/-- Options selecting local transcription only. -/
def optsLocalOnly : TranscriptionOptions :=
  { timestamps := true, local_only := true, no_local := true, model := str "small" }

/-- Options forbidding the local fallback. -/
def optsNoLocal : TranscriptionOptions :=
  { timestamps := true, local_only := false, no_local := true, model := str "small" }

/-! ### Helper lemmas about the URL parser -/

theorem isPrefixOf_append_self (l t : List Char) : l.isPrefixOf (l ++ t) = true := by
  induction l with
  | nil => simp
  | cons c cs ih => simp [List.isPrefixOf_cons₂, ih]

theorem try1_append_self_pos (t tail : List Char) (c : Char) (cs : List Char)
    (h : tail.takeWhile notStop = c :: cs) :
    try1 t (t ++ tail) = some (c :: cs) := by
  simp [try1, isPrefixOf_append_self, List.drop_left, h]

theorem try1_watch_short (tail : List Char) : try1 trigWatch (trigShort ++ tail) = none := rfl

theorem try1_watch_embed (tail : List Char) : try1 trigWatch (trigEmbed ++ tail) = none := rfl

theorem try1_short_embed (tail : List Char) : try1 trigShort (trigEmbed ++ tail) = none := rfl

theorem match1At_nil : match1At [] = none := rfl

theorem match1At_watch (tail : List Char) (c : Char) (cs : List Char)
    (h : tail.takeWhile notStop = c :: cs) :
    match1At (trigWatch ++ tail) = some (c :: cs) := by
  unfold match1At
  rw [try1_append_self_pos trigWatch tail c cs h]

theorem match1At_short (tail : List Char) (c : Char) (cs : List Char)
    (h : tail.takeWhile notStop = c :: cs) :
    match1At (trigShort ++ tail) = some (c :: cs) := by
  unfold match1At
  rw [try1_watch_short, try1_append_self_pos trigShort tail c cs h]

theorem match1At_embed (tail : List Char) (c : Char) (cs : List Char)
    (h : tail.takeWhile notStop = c :: cs) :
    match1At (trigEmbed ++ tail) = some (c :: cs) := by
  unfold match1At
  rw [try1_watch_embed, try1_short_embed, try1_append_self_pos trigEmbed tail c cs h]

theorem search1_cons (c : Char) (t : List Char) :
    search1 (c :: t) =
      match match1At (c :: t) with
      | some r => some r
      | none => search1 t := rfl

theorem search1_of_matchHere (s v : List Char) (h : match1At s = some v) :
    search1 s = some v := by
  cases s with
  | nil => rw [match1At_nil] at h; cases h
  | cons c t => rw [search1_cons, h]

theorem search1_skip (pre s : List Char)
    (h : ∀ i, i < pre.length → match1At ((pre ++ s).drop i) = none) :
    search1 (pre ++ s) = search1 s := by
  induction pre with
  | nil => rfl
  | cons c t ih =>
    have h0 : match1At (c :: (t ++ s)) = none := by
      have h1 := h 0 (by simp)
      simpa using h1
    rw [List.cons_append, search1_cons, h0]
    exact ih fun i hi => by
      have h2 := h (i + 1) (by simp [Nat.succ_lt_succ hi])
      simpa using h2

theorem search1_some_of_suffix (s t v : List Char) (hsuf : t <:+ s)
    (h : match1At t = some v) : (search1 s).isSome = true := by
  induction s with
  | nil =>
    have ht : t = [] := List.suffix_nil.mp hsuf
    rw [ht, match1At_nil] at h; cases h
  | cons c cs ih =>
    rcases List.suffix_cons_iff.mp hsuf with h1 | h1
    · subst h1
      rw [search1_cons, h]
      rfl
    · cases hm : match1At (c :: cs) with
      | some r => rw [search1_cons, hm]; rfl
      | none => rw [search1_cons, hm]; exact ih h1

theorem try1_some_isPrefixOf (t s v : List Char) (h : try1 t s = some v) :
    t.isPrefixOf s = true := by
  by_cases hp : t.isPrefixOf s = true
  · exact hp
  · have hp' : t.isPrefixOf s = false := by
      revert hp; cases t.isPrefixOf s <;> simp
    simp [try1, hp'] at h

theorem match1At_some_youtu (s v : List Char) (h : match1At s = some v) :
    str "youtu" <+: s := by
  unfold match1At at h
  split at h
  next r h1 =>
    have hp := try1_some_isPrefixOf _ _ _ h1
    exact List.IsPrefix.trans ⟨str "be.com/watch?v=", rfl⟩
      ( List.isPrefixOf_iff_prefix.mp hp)
  next h1 =>
    split at h
    next r h2 =>
      have hp := try1_some_isPrefixOf _ _ _ h2
      exact List.IsPrefix.trans ⟨str ".be/", rfl⟩
        ( List.isPrefixOf_iff_prefix.mp hp)
    next h2 =>
      have hp := try1_some_isPrefixOf _ _ _ h
      exact List.IsPrefix.trans ⟨str "be.com/embed/", rfl⟩
        ( List.isPrefixOf_iff_prefix.mp hp)

theorem search1_some_suffix (s v : List Char) (h : search1 s = some v) :
    ∃ t, t <:+ s ∧ match1At t = some v := by
  induction s with
  | nil => cases h
  | cons c cs ih =>
    rw [search1_cons] at h
    cases hm : match1At (c :: cs) with
    | some r =>
      rw [hm] at h
      cases h
      exact ⟨c :: cs, List.suffix_rfl, hm⟩
    | none =>
      rw [hm] at h
      obtain ⟨t, ht, hmt⟩ := ih h
      exact ⟨t, ht.trans (List.suffix_cons c cs), hmt⟩

theorem search2_gives_youtu (s v : List Char) (h : search2 s = some v) :
    str "youtu" <:+: s := by
  induction s with
  | nil => cases h
  | cons c cs ih =>
    by_cases hp : trigWatchQ.isPrefixOf (c :: cs) = true
    · have hpre : trigWatchQ <+: c :: cs := List.isPrefixOf_iff_prefix.mp hp
      have hyw : str "youtu" <+: trigWatchQ := ⟨str "be.com/watch?", rfl⟩
      exact List.IsPrefix.isInfix (hyw.trans hpre)
    · have hp' : trigWatchQ.isPrefixOf (c :: cs) = false := by
        revert hp; cases trigWatchQ.isPrefixOf (c :: cs) <;> simp
      rw [search2, hp'] at h
      simp at h
      exact List.infix_cons (ih h)

theorem extract_none_of_no_youtu (url : List Char) (h : ¬ str "youtu" <:+: url) :
    extract_video_id url = none := by
  cases h1 : search1 url with
  | some v =>
    exfalso
    obtain ⟨t, ht, hm⟩ := search1_some_suffix url v h1
    exact h (List.IsInfix.trans ( List.IsPrefix.isInfix (match1At_some_youtu t v hm)) ( List.IsSuffix.isInfix ht))
  | none =>
    unfold extract_video_id
    rw [h1]
    cases h2 : search2 url with
    | some v => exact absurd (search2_gives_youtu url v h2) h
    | none => rfl

theorem extract_of_search1 (url v : List Char) (h : search1 url = some v) :
    extract_video_id url = some v := by
  unfold extract_video_id
  rw [h]

theorem valid_of_search1_isSome (url : List Char) (h : (search1 url).isSome = true) :
    is_valid_youtube_url url = true := by
  unfold is_valid_youtube_url extract_video_id
  cases hs : search1 url with
  | some v => rfl
  | none => rw [hs] at h; cases h

/-! ### Claim C4 -/

/-- C4: for every URL of one of the supported shapes
(youtube.com/watch?v=ID, youtu.be/ID, youtube.com/embed/ID) the
extractor returns exactly the identifier, namely the run of characters
following the trigger truncated at the first ampersand, question mark,
hash or newline; and on input containing no youtu fragment at all no
pattern matches and the extractor returns none. -/
theorem extract_supported_shapes :
    (∀ tail c cs, tail.takeWhile notStop = c :: cs →
      extract_video_id (str "youtube.com/watch?v=" ++ tail) = some (c :: cs)) ∧
    (∀ tail c cs, tail.takeWhile notStop = c :: cs →
      extract_video_id (str "youtu.be/" ++ tail) = some (c :: cs)) ∧
    (∀ tail c cs, tail.takeWhile notStop = c :: cs →
      extract_video_id (str "youtube.com/embed/" ++ tail) = some (c :: cs)) ∧
    (∀ url, ¬ str "youtu" <:+: url → extract_video_id url = none) := by
  refine ⟨?_, ?_, ?_, extract_none_of_no_youtu⟩
  · intro tail c cs h
    exact extract_of_search1 _ _ (search1_of_matchHere _ _ (match1At_watch tail c cs h))
  · intro tail c cs h
    exact extract_of_search1 _ _ (search1_of_matchHere _ _ (match1At_short tail c cs h))
  · intro tail c cs h
    exact extract_of_search1 _ _ (search1_of_matchHere _ _ (match1At_embed tail c cs h))

/-- Witness for C4 at concrete inputs: the identifier abc is cut off
before the ampersand in all three shapes, and a non-YouTube string
extracts nothing. -/
theorem extract_supported_shapes_witness :
    ((str "abc&x").takeWhile notStop = 'a' :: str "bc" ∧
      extract_video_id (str "youtube.com/watch?v=" ++ str "abc&x") = some ('a' :: str "bc")) ∧
    extract_video_id (str "youtu.be/" ++ str "abc&x") = some ('a' :: str "bc") ∧
    extract_video_id (str "youtube.com/embed/" ++ str "abc&x") = some ('a' :: str "bc") ∧
    (¬ str "youtu" <:+: str "hello") ∧
    extract_video_id (str "hello") = none :=
  ⟨⟨by decide, extract_supported_shapes.1 _ _ _ (by decide)⟩,
   extract_supported_shapes.2.1 _ _ _ (by decide),
   extract_supported_shapes.2.2.1 _ _ _ (by decide),
   by decide,
   extract_supported_shapes.2.2.2 _ (by decide)⟩

/-! ### Claim C10 -/

/-- C10: extraction is an unanchored substring search.  Any string
containing one of the three recognized shapes anywhere inside it is
accepted by the validity check; when no earlier position matches the
first pattern, the extractor returns exactly the identifier embedded
after the trigger; and the second pattern accepts watch URLs in which
the v parameter is not the first query parameter. -/
theorem extract_unanchored :
    (∀ pre tail, tail.takeWhile notStop ≠ [] →
      is_valid_youtube_url (pre ++ (str "youtu.be/" ++ tail)) = true) ∧
    (∀ pre tail, tail.takeWhile notStop ≠ [] →
      is_valid_youtube_url (pre ++ (str "youtube.com/watch?v=" ++ tail)) = true) ∧
    (∀ pre tail, tail.takeWhile notStop ≠ [] →
      is_valid_youtube_url (pre ++ (str "youtube.com/embed/" ++ tail)) = true) ∧
    (∀ pre tail c cs, tail.takeWhile notStop = c :: cs →
      (∀ i, i < pre.length →
        match1At ((pre ++ (str "youtu.be/" ++ tail)).drop i) = none) →
      extract_video_id (pre ++ (str "youtu.be/" ++ tail)) = some (c :: cs)) ∧
    extract_video_id (str "youtube.com/watch?list=PL123&v=dQw4w9WgXcQ") =
      some (str "dQw4w9WgXcQ") := by
  refine ⟨?_, ?_, ?_, ?_, by decide⟩
  · intro pre tail hne
    cases hta : tail.takeWhile notStop with
    | nil => exact absurd hta hne
    | cons c cs =>
      exact valid_of_search1_isSome _
        (search1_some_of_suffix _ _ _ ⟨pre, rfl⟩ (match1At_short tail c cs hta))
  · intro pre tail hne
    cases hta : tail.takeWhile notStop with
    | nil => exact absurd hta hne
    | cons c cs =>
      exact valid_of_search1_isSome _
        (search1_some_of_suffix _ _ _ ⟨pre, rfl⟩ (match1At_watch tail c cs hta))
  · intro pre tail hne
    cases hta : tail.takeWhile notStop with
    | nil => exact absurd hta hne
    | cons c cs =>
      exact valid_of_search1_isSome _
        (search1_some_of_suffix _ _ _ ⟨pre, rfl⟩ (match1At_embed tail c cs hta))
  · intro pre tail c cs hta hnone
    have hskip := search1_skip pre (str "youtu.be/" ++ tail) hnone
    have hhere := search1_of_matchHere _ _ (match1At_short tail c cs hta)
    exact extract_of_search1 _ _ (hskip.trans hhere)

/-- Witness for C10 at concrete inputs: a short link embedded in
surrounding prose is accepted and its identifier extracted. -/
theorem extract_unanchored_witness :
    is_valid_youtube_url (str "watch this: " ++ (str "youtu.be/" ++ str "abc")) = true ∧
    is_valid_youtube_url (str "x" ++ (str "youtube.com/watch?v=" ++ str "abc")) = true ∧
    is_valid_youtube_url (str "x" ++ (str "youtube.com/embed/" ++ str "abc")) = true ∧
    extract_video_id (str "see " ++ (str "youtu.be/" ++ str "dQw&t=1")) =
      some ('d' :: str "Qw") :=
  ⟨extract_unanchored.1 (str "watch this: ") (str "abc") (by decide),
   extract_unanchored.2.1 (str "x") (str "abc") (by decide),
   extract_unanchored.2.2.1 (str "x") (str "abc") (by decide),
   extract_unanchored.2.2.2.1 (str "see ") (str "dQw&t=1") 'd' (str "Qw")
     (by decide) (by decide)⟩

/-! ### Helper lemmas about timestamp arithmetic and digit rendering -/

theorem pyMod_nonneg (a b : ℚ) (hb : 0 < b) : 0 ≤ pyMod a b := by
  have h1 : (⌊a / b⌋ : ℚ) ≤ a / b := Int.floor_le _
  rw [le_div_iff₀ hb] at h1
  have h2 : b * (⌊a / b⌋ : ℚ) = (⌊a / b⌋ : ℚ) * b := mul_comm _ _
  unfold pyMod
  linarith

theorem pyMod_lt (a b : ℚ) (hb : 0 < b) : pyMod a b < b := by
  have h1 : a / b < ⌊a / b⌋ + 1 := Int.lt_floor_add_one _
  rw [div_lt_iff₀ hb] at h1
  have h2 : ((⌊a / b⌋ : ℚ) + 1) * b = b * (⌊a / b⌋ : ℚ) + b := by ring
  unfold pyMod
  linarith

theorem hours_pos_iff (s : ℚ) : 0 < ⌊s / 3600⌋ ↔ 3600 ≤ s := by
  rw [Int.lt_iff_add_one_le, zero_add, Int.le_floor]
  push_cast
  rw [le_div_iff₀ (by norm_num : (0:ℚ) < 3600), one_mul]

theorem natDigits_single (n : Nat) (h : n < 10) :
    natDigits n = [Char.ofNat (48 + n)] := by
  unfold natDigits natDigitsAux
  simp [h]

theorem natDigits_double (n : Nat) (h1 : 10 ≤ n) (h2 : n < 100) :
    natDigits n = [Char.ofNat (48 + n / 10), Char.ofNat (48 + n % 10)] := by
  obtain ⟨m, rfl⟩ : ∃ m, n = m + 1 := ⟨n - 1, by omega⟩
  have hd : (m + 1) / 10 < 10 := by omega
  have hn : ¬ m + 1 < 10 := by omega
  unfold natDigits
  rw [natDigitsAux, if_neg hn, natDigitsAux, if_pos hd]

theorem pad2_length (n : Nat) (h : n < 100) : (pad2 n).length = 2 := by
  by_cases h1 : n < 10
  · rw [pad2, if_pos h1, natDigits_single n h1]
    rfl
  · rw [pad2, if_neg h1, natDigits_double n (by omega) h]
    rfl

theorem minutes_field_bound (s : ℚ) : ⌊pyMod s 3600 / 60⌋.toNat < 60 := by
  have h1 : pyMod s 3600 < 3600 := pyMod_lt s 3600 (by norm_num)
  have h2 : ⌊pyMod s 3600 / 60⌋ < (60 : ℤ) := by
    rw [Int.floor_lt]
    push_cast
    rw [div_lt_iff₀ (by norm_num : (0:ℚ) < 60)]
    linarith
  omega

theorem secs_field_bound (s : ℚ) : ⌊pyMod s 60⌋.toNat < 60 := by
  have h1 : pyMod s 60 < 60 := pyMod_lt s 60 (by norm_num)
  have h2 : ⌊pyMod s 60⌋ < (60 : ℤ) := by
    rw [Int.floor_lt]
    push_cast
    linarith
  omega

/-! ### Claim C6 -/

/-- C6: for a non-negative number of seconds, format_timestamp renders
the HH:MM:SS shape exactly when the total is at least 3600 seconds and
the MM:SS shape otherwise; the minute and second fields are always two
characters wide, the hour field is two characters wide while it has at
most two digits, and the three documented examples hold: 0 renders as
00:00, 65 renders as 01:05 and 3661 renders as 01:01:01. -/
theorem format_timestamp_spec (s : ℚ) (_hs : 0 ≤ s) :
    (3600 ≤ s →
      format_timestamp s =
        pad2 (⌊s / 3600⌋.toNat) ++ ':' :: pad2 (⌊pyMod s 3600 / 60⌋.toNat) ++ ':' ::
          pad2 (⌊pyMod s 60⌋.toNat) ∧
      1 ≤ ⌊s / 3600⌋.toNat ∧
      (⌊s / 3600⌋.toNat < 100 → (pad2 (⌊s / 3600⌋.toNat)).length = 2)) ∧
    (s < 3600 →
      format_timestamp s =
        pad2 (⌊pyMod s 3600 / 60⌋.toNat) ++ ':' :: pad2 (⌊pyMod s 60⌋.toNat)) ∧
    (pad2 (⌊pyMod s 3600 / 60⌋.toNat)).length = 2 ∧
    (pad2 (⌊pyMod s 60⌋.toNat)).length = 2 ∧
    format_timestamp 0 = str "00:00" ∧
    format_timestamp 65 = str "01:05" ∧
    format_timestamp 3661 = str "01:01:01" := by
  refine ⟨?_, ?_, ?_, ?_, ?_, ?_, ?_⟩
  · intro h
    have hpos : 0 < ⌊s / 3600⌋ := (hours_pos_iff s).mpr h
    refine ⟨?_, by omega, fun hh => pad2_length _ hh⟩
    rw [format_timestamp, if_pos hpos]
  · intro h
    have hneg : ¬ 0 < ⌊s / 3600⌋ := by
      rw [hours_pos_iff s]
      exact not_le.mpr h
    rw [format_timestamp, if_neg hneg]
  · exact pad2_length _ (by have := minutes_field_bound s; omega)
  · exact pad2_length _ (by have := secs_field_bound s; omega)
  · have a1 : ⌊(0:ℚ) / 3600⌋ = 0 := by norm_num
    have a2 : ⌊pyMod (0:ℚ) 3600 / 60⌋ = 0 := by norm_num [pyMod]
    have a3 : ⌊pyMod (0:ℚ) 60⌋ = 0 := by norm_num [pyMod]
    rw [format_timestamp, a1, a2, a3]
    decide
  · have a1 : ⌊(65:ℚ) / 3600⌋ = 0 := by norm_num
    have a2 : ⌊pyMod (65:ℚ) 3600 / 60⌋ = 1 := by norm_num [pyMod]
    have a3 : ⌊pyMod (65:ℚ) 60⌋ = 5 := by norm_num [pyMod]
    rw [format_timestamp, a1, a2, a3]
    decide
  · have a1 : ⌊(3661:ℚ) / 3600⌋ = 1 := by norm_num
    have a2 : ⌊pyMod (3661:ℚ) 3600 / 60⌋ = 1 := by norm_num [pyMod]
    have a3 : ⌊pyMod (3661:ℚ) 60⌋ = 1 := by norm_num [pyMod]
    rw [format_timestamp, a1, a2, a3]
    decide

/-- Witness for C6 at the concrete input 65 seconds. -/
theorem format_timestamp_spec_witness :
    (0:ℚ) ≤ 65 ∧
    ((3600 ≤ (65:ℚ) →
      format_timestamp 65 =
        pad2 (⌊(65:ℚ) / 3600⌋.toNat) ++ ':' ::
          pad2 (⌊pyMod (65:ℚ) 3600 / 60⌋.toNat) ++ ':' ::
            pad2 (⌊pyMod (65:ℚ) 60⌋.toNat) ∧
      1 ≤ ⌊(65:ℚ) / 3600⌋.toNat ∧
      (⌊(65:ℚ) / 3600⌋.toNat < 100 → (pad2 (⌊(65:ℚ) / 3600⌋.toNat)).length = 2)) ∧
    ((65:ℚ) < 3600 →
      format_timestamp 65 =
        pad2 (⌊pyMod (65:ℚ) 3600 / 60⌋.toNat) ++ ':' ::
          pad2 (⌊pyMod (65:ℚ) 60⌋.toNat)) ∧
    (pad2 (⌊pyMod (65:ℚ) 3600 / 60⌋.toNat)).length = 2 ∧
    (pad2 (⌊pyMod (65:ℚ) 60⌋.toNat)).length = 2 ∧
    format_timestamp 0 = str "00:00" ∧
    format_timestamp 65 = str "01:05" ∧
    format_timestamp 3661 = str "01:01:01") :=
  ⟨by decide, format_timestamp_spec 65 (by decide)⟩

/-! ### Claim C7 -/

/-- C7: on the empty segment sequence, for any timestamp flag and any
source label, the presenter succeeds and renders exactly the source
header, the first separator rule, zero segment lines, the second
separator rule and the trailing count line naming zero segments. -/
theorem print_transcript_empty (ts : Bool) (src : List Char) :
    print_transcript [] ts src =
      (if src ≠ [] then str "\nTranscript (Source: " ++ src ++ str ")\n\n"
       else str "\nTranscript\n\n") ++
      (sepRule ++ (str "\n" ++ (str "\n" ++ (sepRule ++
        (str "\n" ++ str "Total segments: 0\n"))))) := by
  unfold print_transcript
  simp only [List.map_nil, List.foldr_nil, List.append_nil, List.append_assoc]
  congr 1

/-! ### Claim C3 -/

/-- C3: every invocation of local_transcription creates the scoped
temporary workspace at its start and removes it before returning, on
every exit path: whatever the collaborators do, the final workspace
state records that the directory was created and no longer exists. -/
theorem local_transcription_cleanup (env : Env) (url : List Char)
    (opts : TranscriptionOptions) :
    (local_transcription env url opts).2.2 = { created := true, live := false } ∧
    mkWorkspace = { created := true, live := true } := by
  refine ⟨?_, rfl⟩
  unfold local_transcription
  cases hd : download_audio env url
      (env.tempDirName ++ str "/" ++ videoIdOf url ++ str ".%(ext)s") with
  | error e => rfl
  | ok p =>
    cases ht : transcribe_audio_local env p opts.model with
    | error e => simp [ht, rmWorkspace, mkWorkspace]
    | ok segs => simp [ht, rmWorkspace, mkWorkspace]

/-! ### Claim C9 -/

/-- C9: when the whisper collaborator succeeds, transcribe_audio_local
returns one unified segment per recognizer segment, in the same order,
whose text is the recognizer text trimmed of surrounding whitespace,
whose start is the recognizer start, and whose duration is the
recognizer end minus start. -/
theorem transcribe_audio_local_adapts (env : Env) (p m : List Char)
    (out : WhisperResult) (h : env.whisper p m = .ok out) :
    ∃ segs, transcribe_audio_local env p m = .ok segs ∧
      segs.length = out.segments.length ∧
      ∀ i : Fin segs.length, ∀ hi : i.1 < out.segments.length,
        (segs.get i).text = pyStrip ((out.segments.get ⟨i.1, hi⟩).text) ∧
        (segs.get i).start = (out.segments.get ⟨i.1, hi⟩).start ∧
        (segs.get i).duration =
          (out.segments.get ⟨i.1, hi⟩).endTime -
            (out.segments.get ⟨i.1, hi⟩).start := by
  refine ⟨out.segments.map
    (fun sg => { text := pyStrip sg.text, start := sg.start,
                 duration := sg.endTime - sg.start }), ?_, by simp, ?_⟩
  · unfold transcribe_audio_local
    rw [h]
  · intro i hi
    simp [List.get_eq_getElem, List.getElem_map]

/-- Witness for C9 at a concrete recognizer output. -/
theorem transcribe_audio_local_adapts_witness :
    ∃ segs, transcribe_audio_local envWhisperOk (str "a.m4a") (str "small") = .ok segs ∧
      segs.length = whisperOutW.segments.length ∧
      ∀ i : Fin segs.length, ∀ hi : i.1 < whisperOutW.segments.length,
        (segs.get i).text = pyStrip ((whisperOutW.segments.get ⟨i.1, hi⟩).text) ∧
        (segs.get i).start = (whisperOutW.segments.get ⟨i.1, hi⟩).start ∧
        (segs.get i).duration =
          (whisperOutW.segments.get ⟨i.1, hi⟩).endTime -
            (whisperOutW.segments.get ⟨i.1, hi⟩).start :=
  transcribe_audio_local_adapts envWhisperOk (str "a.m4a") (str "small") whisperOutW rfl

/-! ### Helper lemmas about the orchestrator -/

theorem run_local_stage_events (env : Env) (url : List Char)
    (opts : TranscriptionOptions) :
    (run_local_stage env url opts).2.1 = (local_transcription env url opts).2.1 := by
  unfold run_local_stage
  rcases local_transcription env url opts with ⟨r, evs, ws⟩
  cases r <;> rfl

theorem local_transcription_events (env : Env) (url : List Char)
    (opts : TranscriptionOptions) :
    (local_transcription env url opts).2.1 =
      [Event.localTranscription, Event.downloadAudio] ∨
    (local_transcription env url opts).2.1 =
      [Event.localTranscription, Event.downloadAudio, Event.transcribeLocal] := by
  unfold local_transcription
  cases hd : download_audio env url
      (env.tempDirName ++ str "/" ++ videoIdOf url ++ str ".%(ext)s") with
  | error e => left; rfl
  | ok p =>
    cases ht : transcribe_audio_local env p opts.model with
    | error e => right; simp [ht]
    | ok segs => right; simp [ht]

theorem get_transcript_invalid (env : Env) (url : List Char)
    (opts : TranscriptionOptions) (hv : is_valid_youtube_url url = false) :
    get_transcript env url opts =
      (.error (str "Invalid YouTube URL provided"), [],
        { created := false, live := false }) := by
  unfold get_transcript
  rw [hv]
  rfl

theorem get_transcript_local_only (env : Env) (url : List Char)
    (opts : TranscriptionOptions) (hv : is_valid_youtube_url url = true)
    (h : opts.local_only = true) :
    get_transcript env url opts = run_local_stage env url opts := by
  unfold get_transcript
  rw [hv, h]
  simp

theorem get_transcript_remote_fail_no_local (env : Env) (url : List Char)
    (opts : TranscriptionOptions) (e : List Char)
    (hv : is_valid_youtube_url url = true) (h1 : opts.local_only = false)
    (h2 : opts.no_local = true) (hr : env.remote (videoIdOf url) = .error e) :
    get_transcript env url opts =
      (.error (str "No transcript available: " ++ e), [Event.fetchCaptions],
        { created := false, live := false }) := by
  unfold get_transcript
  rw [hv, h1, hr, h2]
  simp

/-! ### Claim C1 -/

/-- C1: whenever local_only is set, the orchestrator never invokes the
caption fetcher, whatever the collaborators and the other options do;
and no_local never blocks such a run: on any valid url the run still
proceeds into local transcription. -/
theorem local_only_never_fetches (env : Env) (url : List Char)
    (opts : TranscriptionOptions) (h : opts.local_only = true) :
    Event.fetchCaptions ∉ (get_transcript env url opts).2.1 ∧
    (is_valid_youtube_url url = true →
      Event.localTranscription ∈ (get_transcript env url opts).2.1) := by
  cases hv : is_valid_youtube_url url with
  | false =>
    rw [get_transcript_invalid env url opts hv]
    exact ⟨by decide, fun hc => by cases hc⟩
  | true =>
    rw [get_transcript_local_only env url opts hv h,
      run_local_stage_events env url opts]
    rcases local_transcription_events env url opts with he | he <;> rw [he] <;>
      exact ⟨by decide, fun _ => by decide⟩

/-- Witness for C1: with local_only and no_local both set and all
collaborators failing, the trace of a run on a valid short link shows
no caption fetch but does show local transcription. -/
theorem local_only_never_fetches_witness :
    optsLocalOnly.local_only = true ∧
    Event.fetchCaptions ∉
      (get_transcript envStub (str "https://youtu.be/abc") optsLocalOnly).2.1 ∧
    Event.localTranscription ∈
      (get_transcript envStub (str "https://youtu.be/abc") optsLocalOnly).2.1 :=
  ⟨rfl,
   (local_only_never_fetches envStub (str "https://youtu.be/abc") optsLocalOnly rfl).1,
   (local_only_never_fetches envStub (str "https://youtu.be/abc") optsLocalOnly rfl).2
     (by decide)⟩

/-! ### Claim C2 -/

/-- C2: when the remote fetch was attempted and failed and no_local is
set, get_transcript raises the terminal error wrapping the fetch
failure, the trace contains only the caption fetch, and neither audio
acquisition nor local recognition is ever invoked. -/
theorem remote_fail_no_local_terminal (env : Env) (url : List Char)
    (opts : TranscriptionOptions) (e : List Char)
    (h1 : opts.local_only = false) (h2 : opts.no_local = true)
    (hv : is_valid_youtube_url url = true)
    (hr : env.remote (videoIdOf url) = .error e) :
    (get_transcript env url opts).1 =
      .error (str "No transcript available: " ++ e) ∧
    (get_transcript env url opts).2.1 = [Event.fetchCaptions] ∧
    Event.downloadAudio ∉ (get_transcript env url opts).2.1 ∧
    Event.transcribeLocal ∉ (get_transcript env url opts).2.1 := by
  rw [get_transcript_remote_fail_no_local env url opts e hv h1 h2 hr]
  exact ⟨rfl, rfl, by simp, by simp⟩

/-- Witness for C2: a run on a valid short link whose caption service
reports disabled captions, with no_local set. -/
theorem remote_fail_no_local_terminal_witness :
    (get_transcript envStub (str "https://youtu.be/abc") optsNoLocal).1 =
      .error (str "No transcript available: " ++ str "captions disabled") ∧
    (get_transcript envStub (str "https://youtu.be/abc") optsNoLocal).2.1 =
      [Event.fetchCaptions] ∧
    Event.downloadAudio ∉
      (get_transcript envStub (str "https://youtu.be/abc") optsNoLocal).2.1 ∧
    Event.transcribeLocal ∉
      (get_transcript envStub (str "https://youtu.be/abc") optsNoLocal).2.1 :=
  remote_fail_no_local_terminal envStub (str "https://youtu.be/abc") optsNoLocal
    (str "captions disabled") rfl rfl (by decide) rfl

/-! ### Claim C5 -/

/-- C5: on any input from which no identifier can be extracted,
get_transcript raises the invalid url error and the collaborator trace
stays empty: no caption fetch, no download and no recognition is ever
attempted. -/
theorem invalid_url_immediate (env : Env) (url : List Char)
    (opts : TranscriptionOptions) (h : extract_video_id url = none) :
    (get_transcript env url opts).1 = .error (str "Invalid YouTube URL provided") ∧
    (get_transcript env url opts).2.1 = [] := by
  have hv : is_valid_youtube_url url = false := by
    unfold is_valid_youtube_url
    rw [h]
    rfl
  rw [get_transcript_invalid env url opts hv]
  exact ⟨rfl, rfl⟩

/-- Witness for C5 on a plainly malformed input. -/
theorem invalid_url_immediate_witness :
    (get_transcript envStub (str "hello") optsNoLocal).1 =
      .error (str "Invalid YouTube URL provided") ∧
    (get_transcript envStub (str "hello") optsNoLocal).2.1 = [] :=
  invalid_url_immediate envStub (str "hello") optsNoLocal (by decide)

/-! ### Claim C8 -/

theorem findDownloaded_eq (f : List Char → Bool) (base : List Char)
    (exts : List (List Char)) :
    findDownloaded f base exts =
      (exts.find? fun ext => f (base ++ ext)).map (fun ext => base ++ ext) := by
  induction exts with
  | nil => rfl
  | cons ext rest ih =>
    by_cases hf : f (base ++ ext) = true
    · simp [findDownloaded, hf]
    · have hf' : f (base ++ ext) = false := by
        revert hf; cases f (base ++ ext) <;> simp
      simp [findDownloaded, hf', ih]

/-- C8: after the downloader reports completion, download_audio probes
the expected extensions in the fixed order m4a, webm, mp4, mp3 against
the extension-template-stripped base path and returns the first
existing one; when none exists the failure message names the missing
downloaded file, which differs from the wrapped message of any network
failure whose reason is not itself that text. -/
theorem download_audio_probes (env : Env) (url output_path : List Char) :
    (env.ydl url output_path = .ok () →
      download_audio env url output_path =
        match (audioExts.find? fun ext =>
            env.fileExists (replaceAll output_path (str ".%(ext)s") [] ++ ext)) with
        | some ext => .ok (replaceAll output_path (str ".%(ext)s") [] ++ ext)
        | none => .error (str "Download failed: Downloaded file not found")) ∧
    (∀ e, env.ydl url output_path = .error e →
      download_audio env url output_path = .error (str "Download failed: " ++ e)) ∧
    (∀ e, str "Download failed: " ++ e =
        str "Download failed: Downloaded file not found" →
      e = str "Downloaded file not found") := by
  refine ⟨?_, ?_, ?_⟩
  · intro h
    unfold download_audio
    rw [h, findDownloaded_eq]
    cases hf : audioExts.find? fun ext =>
        env.fileExists (replaceAll output_path (str ".%(ext)s") [] ++ ext) with
    | some ext => simp [hf]
    | none => simp [hf]
  · intro e h
    unfold download_audio
    rw [h]
  · intro e h
    rw [show str "Download failed: Downloaded file not found" =
        str "Download failed: " ++ str "Downloaded file not found" from rfl] at h
    exact List.append_cancel_left h

/-- Witness for C8: with only the webm file on disk the probe skips
the missing m4a and returns the webm path; a network failure is
wrapped under the download prefix. -/
theorem download_audio_probes_witness :
    envDlFound.ydl (str "u") (str "/tmp/w/abc.%(ext)s") = .ok () ∧
    download_audio envDlFound (str "u") (str "/tmp/w/abc.%(ext)s") =
      .ok (str "/tmp/w/abc.webm") ∧
    download_audio envStub (str "u") (str "/tmp/w/abc.%(ext)s") =
      .error (str "Download failed: " ++ str "network down") := by
  refine ⟨rfl, ?_, ?_⟩
  · have h := (download_audio_probes envDlFound (str "u") (str "/tmp/w/abc.%(ext)s")).1 rfl
    rw [h]
    decide
  · exact (download_audio_probes envStub (str "u") (str "/tmp/w/abc.%(ext)s")).2.1
      (str "network down") rfl
